import Mathlib

/-!
Shallow embedding of the schema-synchronizing query-builder layer
(`vrianta/golang.db.model`), covering the field model and type mapper,
the validator, the schema introspector and differ/reconciler, and the
component cache sync protocol.  Definitions are translated directly from
the Go source; `any`-typed record payloads are modelled as string maps,
and Go maps are modelled as association lists whose order stands for one
map-iteration order (all theorems quantify over that order).
-/

namespace GoDbModel

/-- Semantic field types, from the `fieldType` constant block in `ddl.go`
(34 constructors, in source order). -/
inductive fieldType where
  | String | Text | VarChar | Int | Float | Decimal | Bool
  | Date | Time | Timestamp | JSON | Enum | Binary | UUID | TinyInt
  | SmallInt | MediumInt | BigInt | Double | Real | Char
  | LongText | MediumText | TinyText | Blob | TinyBlob | MediumBlob | LongBlob
  | Set | Year | Geometry | Point | LineString | Polygon
deriving DecidableEq, BEq, Repr

/-- Type mapper `fieldType.string()` from `field_types.go`: semantic type to
dialect column type string, with the "TEXT" fallback for unlisted types. -/
def typeToString : fieldType → String
  | .String | .VarChar => "VARCHAR"
  | .Text => "TEXT"
  | .Int => "INT"
  | .Float => "FLOAT"
  | .Decimal => "DECIMAL(10,2)"
  | .Bool => "BOOLEAN"
  | .TinyInt => "TINYINT"
  | .Date => "DATE"
  | .Time => "TIME"
  | .Timestamp => "TIMESTAMP"
  | .JSON => "JSON"
  | .Enum => "ENUM"
  | .Binary => "BLOB"
  | .UUID => "CHAR(36)"
  | _ => "TEXT"

/-- `fieldType.IsNumeric` from `field_types.go`. -/
def isNumericType : fieldType → Bool
  | .Bool | .Int | .TinyInt | .Float | .Decimal => true
  | _ => false

/-- Characters of a string up to (excluding) the first occurrence of `sep`;
this is `strings.Split(s, sep)[0]` for a one-character separator. -/
def takeUntil (sep : Char) : List Char → List Char
  | [] => []
  | c :: cs => if c = sep then [] else c :: takeUntil sep cs

/-- `strings.Split(s, sep)[0]` for a one-character separator `sep`. -/
def splitHead (sep : Char) (s : String) : String :=
  ⟨takeUntil sep s.data⟩

/-- `strings.ToUpper` on the ASCII data these models use, working on the
character list so that it evaluates inside proofs. -/
def goToUpper (s : String) : String :=
  ⟨s.data.map Char.toUpper⟩

/-- `strings.ToLower` on the ASCII data these models use. -/
def goToLower (s : String) : String :=
  ⟨s.data.map Char.toLower⟩

/-- Prefix test on character lists. -/
def listPrefix : List Char → List Char → Bool
  | [], _ => true
  | _ :: _, [] => false
  | p :: ps, c :: cs => p == c && listPrefix ps cs

/-- `strings.HasPrefix(s, pre)`. -/
def goHasPrefix (s pre : String) : Bool :=
  listPrefix pre.data s.data

/-- Go's whitespace test used by `strings.TrimSpace` (ASCII cut set). -/
def goIsSpace (c : Char) : Bool :=
  c = ' ' || c = '\t' || c = '\n' || c = '\r' || c = '\x0b' || c = '\x0c'

/-- `strings.TrimSpace`: strips leading and trailing whitespace. -/
def goTrim (s : String) : String :=
  ⟨((s.data.dropWhile goIsSpace).reverse.dropWhile goIsSpace).reverse⟩

/-- The `ENUM(...)` rendering rebuilt inside `Compare`'s "ENUM" case:
each literal is quoted and upper-cased (Go applies `ToUpper` to
`val + "'"`, which leaves the quote unchanged), joined with commas. -/
def enumRender (defn : List String) : String :=
  "ENUM(" ++ String.intercalate "," (defn.map (fun v => "'" ++ goToUpper (v ++ "'"))) ++ ")"

/-- `Field.Compare(fieldTypeStr)` from the field file: strips a parenthesized
suffix from the live type string and matches the base token against the
acceptable semantic types; the "ENUM" case instead compares the whole live
string against the rebuilt literal-list rendering. -/
def compareGo (t : fieldType) (defn : List String) (fieldTypeStr : String) : Bool :=
  match splitHead '(' fieldTypeStr with
  | "TINYINT" => t == .TinyInt || t == .Bool
  | "SMALLINT" => t == .SmallInt
  | "MEDIUMINT" => t == .MediumInt
  | "INT" | "INTEGER" => t == .Int
  | "BIGINT" => t == .BigInt
  | "VARCHAR" => t == .VarChar || t == .String
  | "CHAR" => t == .Char || t == .String
  | "TEXT" => t == .Text || t == .String
  | "LONGTEXT" => t == .LongText || t == .JSON
  | "BOOL" | "BOOLEAN" => t == .Bool || t == .TinyInt
  | "DECIMAL" => t == .Decimal
  | "FLOAT" => t == .Float
  | "DOUBLE" | "REAL" => t == .Double || t == .Real
  | "JSON" => t == .JSON
  | "BLOB" => t == .Blob
  | "DATE" => t == .Date
  | "TIME" => t == .Time
  | "TIMESTAMP" => t == .Timestamp
  | "ENUM" => fieldTypeStr == enumRender defn
  | "UUID" => t == .UUID
  | _ => false

/-- Index flags of a declared field (`Index` struct). -/
structure IndexFlags where
  PrimaryKey : Bool := false
  Unique : Bool := false
  Index : Bool := false
  FullText : Bool := false
  Spatial : Bool := false
deriving DecidableEq, Repr

/-- A declared field (`Field` struct).  `definition` distinguishes a Go
`nil` slice (`none`) from a non-nil empty slice (`some []`), which the
validator treats differently; lengths are Go `int`s. -/
structure FieldE where
  name : String
  type : fieldType
  length : Int := 0
  nullable : Bool := false
  definition : Option (List String) := none
  defaultValue : String := ""
  autoIncrement : Bool := false
  index : IndexFlags := {}
deriving DecidableEq, Repr

/-- `Field.Compare` as a method on the embedded field (a nil literal list
behaves as the empty list, as Go's `range nil` does). -/
def FieldE.Compare (f : FieldE) (fieldTypeStr : String) : Bool :=
  compareGo f.type (f.definition.getD []) fieldTypeStr

/-- The reserved-word table `sqlKeywords` from `ddl.go`. -/
def sqlKeywords : List String :=
  ["ADD", "ALL", "ALTER", "AND", "ANY",
   "AS", "ASC", "BACKUP", "BETWEEN", "CASE",
   "CHECK", "COLUMN", "CONSTRAINT", "CREATE",
   "DATABASE", "DEFAULT", "DELETE", "DESC",
   "DISTINCT", "DROP", "EXEC", "EXISTS",
   "FOREIGN", "FROM", "FULL", "GROUP", "HAVING",
   "IN", "INDEX", "INNER", "INSERT", "INTO",
   "IS", "JOIN", "KEY", "LEFT", "LIKE",
   "LIMIT", "NOT", "NULL", "OR", "ORDER",
   "OUTER", "PRIMARY", "PROCEDURE", "RIGHT",
   "ROWNUM", "SELECT", "SET", "TABLE", "TOP",
   "TRUNCATE", "UNION", "UNIQUE", "UPDATE",
   "VALUES", "VIEW", "WHERE", "WITH"]

/-- `isAlphaNumeric` from the field file: every rune is a letter or a digit
(ASCII behaviour of Go's `unicode.IsLetter`/`IsDigit` for the names used here). -/
def goIsAlphaNumeric (s : String) : Bool :=
  s.data.all (fun c => c.isAlpha || c.isDigit)

/-- One tag per panic site of the validator (`validate.go`); the panic
message strings are abstracted to these tags. -/
inductive VErr where
  | enumNoDefinition | enumEmptyDefinition
  | pkAndUnique | pkBadType | pkNullable | pkHasDefault
  | aiNotPrimaryKey | aiNotIntType
  | emptyName | nameNotAlphaNumeric | nameNotLetterStart | nameReservedKeyword
  | badLength | lengthOnFixedType
  | aiNotNumeric | pkNullableField | indexOnTextBlob | incompatibleDefault
deriving DecidableEq, Repr

/-- The length policy switch inside `Field.Validate` (`validate.go`). -/
def lengthCheck (f : FieldE) : Option VErr :=
  match f.type with
  | .TinyInt => if f.length < 3 then some .badLength else none
  | .Bool => if f.length < 0 || f.length > 1 then some .badLength else none
  | .SmallInt => if f.length < 5 then some .badLength else none
  | .MediumInt => if f.length < 6 then some .badLength else none
  | .Int | .BigInt => if f.length < 1 then some .badLength else none
  | .VarChar | .Char => if f.length < 1 then some .badLength else none
  | .Decimal => if f.length < 1 then some .badLength else none
  | .Text | .Blob | .JSON | .Date | .Time | .Timestamp =>
    if f.length > 0 then some .lengthOnFixedType else none
  | _ => none

/-- `Field.Validate` from `validate.go`, with the default-value
compatibility predicate `IsValueCompatible` passed in as a parameter
(its numeric/date/JSON cases call Go library parsers external to this
embedding; none of the theorems below depend on it, because they only
use fields with an empty default). -/
def fieldValidate (compat : fieldType → String → Bool) (f : FieldE) : Except VErr Unit :=
  if f.name == "" then .error .emptyName
  else if !(goIsAlphaNumeric f.name) then .error .nameNotAlphaNumeric
  else if !(f.name.front.isAlpha) then .error .nameNotLetterStart
  else if sqlKeywords.contains (goToUpper f.name) then .error .nameReservedKeyword
  else match lengthCheck f with
  | some e => .error e
  | none =>
    if f.autoIncrement && !(isNumericType f.type) then .error .aiNotNumeric
    else if f.index.PrimaryKey && f.nullable then .error .pkNullableField
    else if (f.index.Unique || f.index.Index) && (f.type == .Text || f.type == .Blob) then
      .error .indexOnTextBlob
    else if f.defaultValue != "" && !(compat f.type f.defaultValue) then
      .error .incompatibleDefault
    else .ok ()

/-- The per-field body of `meta.validate` (`validate.go`), minus the
duplicate-name map check (a table-level concern over the whole field set)
and the primary-key counter (aggregated after all fields). -/
def metaFieldChecks (f : FieldE) : Except VErr Unit :=
  if f.type == .Enum && f.definition == none then .error .enumNoDefinition
  else if f.definition != none && (f.definition.getD []).length == 0 then
    .error .enumEmptyDefinition
  else if f.index.PrimaryKey && f.index.Unique then .error .pkAndUnique
  else if f.index.PrimaryKey && !(f.type == .Int) && !(f.type == .VarChar) then
    .error .pkBadType
  else if f.index.PrimaryKey && f.nullable then .error .pkNullable
  else if f.index.PrimaryKey && f.defaultValue != "" then .error .pkHasDefault
  else if f.autoIncrement && !f.index.PrimaryKey then .error .aiNotPrimaryKey
  else if f.autoIncrement && !(goHasPrefix (goToLower (typeToString f.type)) "int") then
    .error .aiNotIntType
  else .ok ()

/-- Per-field validation as run by `meta.validate`: the goroutine-body
checks, then `Field.Validate`. -/
def validateField (compat : fieldType → String → Bool) (f : FieldE) : Except VErr Unit :=
  match metaFieldChecks f with
  | .error e => .error e
  | .ok _ => fieldValidate compat f

/-- Association-list lookup, modelling Go map indexing `m[k]`. -/
def klookup [DecidableEq κ] (k : κ) : List (κ × α) → Option α
  | [] => none
  | (k2, v) :: rest => if k2 = k then some v else klookup k rest

/-- Association-list store, modelling Go map assignment `m[k] = v`. -/
def minsert [DecidableEq κ] (k : κ) (v : α) : List (κ × α) → List (κ × α)
  | [] => [(k, v)]
  | (k2, v2) :: rest => if k2 = k then (k2, v) :: rest else (k2, v2) :: minsert k v rest

/-- One introspected column (`schema` struct in `type.go`); `defaultVal`
is the `.String` projection of the `sql.NullString`. -/
structure SchemaE where
  field : String
  fieldType : String
  nullable : String
  key : String
  extra : String
  defaultVal : String
  isunique : Bool := false
  isindex : Bool := false
  isprimary : Bool := false
deriving DecidableEq, Repr

/-- Numeric value of a digit list (the `strconv.Atoi` of a match of `\d+`). -/
def digitsToNat (cs : List Char) : Nat :=
  cs.foldl (fun a c => a * 10 + (c.toNat - '0'.toNat)) 0

/-- `schema.parseSQLType` from `scema.go`: upper-cases the trimmed live
type and matches the anchored pattern `[A-Z]+ "(" [0-9]+ ")"`; on a match
it returns the base and the length, otherwise the whole string and 0. -/
def parseSQLType (s : String) : String × Int :=
  let up := goToUpper (goTrim s)
  let cs := up.data
  let letters := cs.takeWhile (fun c => 'A' ≤ c && c ≤ 'Z')
  match cs.drop letters.length with
  | '(' :: rest2 =>
    let digits := rest2.takeWhile Char.isDigit
    let rest3 := rest2.drop digits.length
    if letters.isEmpty || digits.isEmpty || !(rest3 == [')']) then (up, 0)
    else (⟨letters⟩, Int.ofNat (digitsToNat digits))
  | _ => (up, 0)

/-- One tag per drift reason recorded by `syncTableSchema`'s comparison of
an existing column (the printf reason strings are abstracted to tags). -/
inductive Reason where
  | typeMismatch | lengthMismatch | defaultMismatch | nullableMismatch | autoIncMismatch
deriving DecidableEq, Repr

/-- The reason list `syncTableSchema` builds for a declared field whose
column exists in the live schema (part of the differ, lines 79-110):
type via `Compare`, length with the 1-versus-0 special case, default
except for timestamps, nullable "YES"/"NO" versus the bool, and the
`auto_increment` extra marker. -/
def driftReasons (f : FieldE) (sc : SchemaE) : List Reason :=
  let pt := parseSQLType sc.fieldType
  let r1 : List Reason := if !(f.Compare pt.1) then [.typeMismatch] else []
  let r2 : List Reason :=
    if !(pt.2 == 1 && f.length == 0) && pt.2 != f.length then r1 ++ [.lengthMismatch] else r1
  let r3 : List Reason :=
    if sc.defaultVal != f.defaultValue && !(f.type == .Timestamp) then
      r2 ++ [.defaultMismatch]
    else r2
  let r4 : List Reason :=
    if (sc.nullable == "YES" && !f.nullable) || (sc.nullable == "NO" && f.nullable) then
      r3 ++ [.nullableMismatch]
    else r3
  if (sc.extra == "auto_increment" && !f.autoIncrement) || (sc.extra == "" && f.autoIncrement) then
    r4 ++ [.autoIncMismatch]
  else r4

/-- One DDL action of the reconciler, tagged with the column name. -/
inductive Action where
  | addField (name : String)
  | modifyField (name : String)
  | syncUnique (name : String)
  | syncPrimary (name : String)
  | syncIndex (name : String)
  | removeField (name : String)
deriving DecidableEq, Repr

/-- Whether an action is an "add column". -/
def Action.isAddField : Action → Bool
  | .addField _ => true
  | _ => false

/-- Reading one line from the interactive reader: the next pending line,
or the empty string once input is exhausted (an exhausted reader returns
an error and an empty string, which every prompt treats as a decline). -/
def nextInput : List String → String × List String
  | [] => ("", [])
  | i :: r => (i, r)

/-- One y/n prompt guarding a single action: the action is emitted only
when the trimmed response is exactly "y". -/
def promptAct (ins : List String) (a : Action) : List Action × List String :=
  let i := nextInput ins
  (if goTrim i.1 == "y" then [a] else [], i.2)

/-- A prompt that is issued only when `c` holds (mismatch found). -/
def promptActIf (c : Bool) (ins : List String) (a : Action) : List Action × List String :=
  if c then promptAct ins a else ([], ins)

/-- The existing-column part of `syncTableSchema`'s field loop: a modify
prompt when any drift reason fired, then the three index-consistency
prompts (UNIQUE, PRIMARY KEY, INDEX), each only on a flag mismatch. -/
def existingFieldActions (f : FieldE) (sc : SchemaE) (ins : List String) :
    List Action × List String :=
  let m1 := promptActIf (!(driftReasons f sc).isEmpty) ins (.modifyField f.name)
  let u1 := promptActIf (sc.isunique != f.index.Unique) m1.2 (.syncUnique f.name)
  let p1 := promptActIf (sc.isprimary != f.index.PrimaryKey) u1.2 (.syncPrimary f.name)
  let x1 := promptActIf (sc.isindex != f.index.Index) p1.2 (.syncIndex f.name)
  (m1.1 ++ u1.1 ++ p1.1 ++ x1.1, x1.2)

/-- The field loop of `syncTableSchema` (comparison pass): a missing
column is prompted for and, on "y", queued in the pending-add list
(DDL deferred); an existing column is compared and its modify/index
actions applied in place.  Returns (actions, pending adds, rest of input). -/
def phase1 (sm : List (String × SchemaE)) :
    List FieldE → List String → List Action × List FieldE × List String
  | [], ins => ([], [], ins)
  | f :: fs, ins =>
    match klookup f.name sm with
    | none =>
      let i := nextInput ins
      let o := phase1 sm fs i.2
      if goTrim i.1 == "y" then (o.1, f :: o.2.1, o.2.2) else o
    | some sc =>
      let e := existingFieldActions f sc ins
      let o := phase1 sm fs e.2
      (e.1 ++ o.1, o.2.1, o.2.2)

/-- The stale-column loop of `syncTableSchema`: every live column absent
from the declared field set is prompted for deletion. -/
def phase2 (fm : List (String × FieldE)) :
    List SchemaE → List String → List Action × List String
  | [], ins => ([], ins)
  | sc :: scs, ins =>
    if (klookup sc.field fm).isNone then
      let i := nextInput ins
      let o := phase2 fm scs i.2
      ((if goTrim i.1 == "y" then [Action.removeField sc.field] else []) ++ o.1, o.2)
    else phase2 fm scs ins

/-- `syncTableSchema` from the reconciler file as an action trace: build
the schema and field maps, run the comparison pass, then the stale-column
pass, and finally apply the pending "add column" actions. -/
def syncTableSchema (fields : List FieldE) (schemas : List SchemaE)
    (inputs : List String) : List Action :=
  let sm := schemas.foldl (fun m sc => minsert sc.field sc m) []
  let fm := fields.foldl (fun m f => minsert f.name f m) []
  let o := phase1 sm fields inputs
  let d := phase2 fm schemas o.2.2
  o.1 ++ d.1 ++ o.2.1.map (fun f => Action.addField f.name)

/-- One raw row of `SHOW COLUMNS` as scanned by `syncModelSchema`. -/
structure RawCol where
  field : String
  fieldType : String
  nullable : String
  key : String
  defaultVal : String
  extra : String
deriving DecidableEq, Repr

/-- Index classification of `syncModelSchema`: the literal name "PRIMARY"
sets is-primary; otherwise the first underscore-delimited token selects
is-indexed (`idx`) or is-unique (`unq`); any other name is ignored.
Returns (isprimary, isindex, isunique). -/
def classifyIndexes (names : List String) : Bool × Bool × Bool :=
  names.foldl
    (fun acc nm =>
      if nm = "PRIMARY" then (true, acc.2.1, acc.2.2)
      else
        let pfx := splitHead '_' nm
        if pfx = "idx" then (acc.1, true, acc.2.2)
        else if pfx = "unq" then (acc.1, acc.2.1, true)
        else acc)
    (false, false, false)

/-- `syncModelSchema` from the introspector file, with the database
answers passed in: `count` is the information_schema existence count, and
`rows` pairs each column row with the index names returned for that
column.  When the count is zero the function logs and returns at once,
before the line that clears the cached snapshot, so the previous snapshot
list is left as it was; otherwise the snapshot is rebuilt from scratch. -/
def syncModelSchema (count : Nat) (rows : List (RawCol × List String))
    (prev : List SchemaE) : List SchemaE :=
  if count = 0 then prev
  else
    rows.map (fun ri =>
      let c := classifyIndexes ri.2
      { field := ri.1.field, fieldType := ri.1.fieldType, nullable := ri.1.nullable,
        key := ri.1.key, extra := ri.1.extra, defaultVal := ri.1.defaultVal,
        isprimary := c.1, isindex := c.2.1, isunique := c.2.2 })

/-- A component record: the open-ended column-to-value object of one row
(`component` type); the `any` values are modelled as strings. -/
abbrev Rec := List (String × String)

/-- A key of the `Results` map (`map[any]Result`): the driver returns a
string or, after JSON unmarshalling of an integer primary key, an `int64`. -/
inductive DBKey where
  | str (s : String)
  | int (n : Int)
deriving DecidableEq, Repr

/-- `fmt.Sprint` on a map key as used by the component sync (string keys
print as themselves, `int64` keys in decimal). -/
def sprintKey : DBKey → String
  | .str s => s
  | .int n => toString n

/-- `strconv.Atoi`: an optional sign followed by at least one digit
(arbitrary precision; the claims only exercise small keys, so the Go
`int` overflow bound is not modelled). -/
def goAtoi (s : String) : Option Int :=
  let digitsVal : List Char → Option Nat := fun cs =>
    if cs.isEmpty || !(cs.all Char.isDigit) then none else some (digitsToNat cs)
  match s.data with
  | [] => none
  | c :: cs =>
    if c = '+' then (digitsVal cs).map Int.ofNat
    else if c = '-' then (digitsVal cs).map (fun n => -(n : Int))
    else (digitsVal (c :: cs)).map Int.ofNat

/-- One database operation issued by the component sync (the query builder
is external; `insertRow` records the inserted values, `deleteWhere` the
primary-key argument of `Delete().Where(primary).Is(k)`). -/
inductive DbOp where
  | insertRow (r : Rec)
  | deleteWhere (k : DBKey)
deriving DecidableEq, Repr

/-- The add-missing loop of `SyncComponentWithDB` (part of the component
file, lines 96-121).  For an integer primary key the in-memory string key
is coerced with `strconv.Atoi` (an unparsable key aborts the sync with
that error) and membership is tested against the `int64` key; on a miss
the record is inserted and the fetched map gains the entry under the
string key (exactly as the Go `dbResults[k] = Result(v)` does).  Returns
the updated fetched map and the insert operations issued. -/
def addMissing (intKey : Bool) :
    List (String × Rec) → List (DBKey × Rec) → List DbOp →
      Except String (List (DBKey × Rec) × List DbOp)
  | [], db, ops => .ok (db, ops)
  | (k, v) :: rest, db, ops =>
    if intKey then
      match goAtoi k with
      | none => .error ("invalid integer key: " ++ k)
      | some n =>
        if (klookup (DBKey.int n) db).isNone then
          addMissing intKey rest (db ++ [(DBKey.str k, v)]) (ops ++ [DbOp.insertRow v])
        else addMissing intKey rest db ops
    else
      if (klookup (DBKey.str k) db).isNone then
        addMissing intKey rest (db ++ [(DBKey.str k, v)]) (ops ++ [DbOp.insertRow v])
      else addMissing intKey rest db ops

/-- `SyncComponentWithDB` from the component file, with the fetched rows
passed in.  With no local components it is a no-op; with an empty fetch it
inserts every local record and returns with memory untouched; otherwise it
adds the missing records, issues a delete for every fetched key absent
from memory, and finally rebuilds the in-memory set from the fetched map
(whose entries the delete loop never removes) and rewrites the JSON file
to match.  Returns the final in-memory set (= rewritten JSON contents)
and the ordered database operations issued. -/
def syncComponentWithDB (intKey : Bool) (comps : List (String × Rec))
    (db : List (DBKey × Rec)) :
    Except String (List (String × Rec) × List DbOp) :=
  if comps.length = 0 then .ok (comps, [])
  else if db.length = 0 then .ok (comps, comps.map (fun kv => DbOp.insertRow kv.2))
  else
    match addMissing intKey comps db [] with
    | .error e => .error e
    | .ok (db2, ops) =>
      let delOps := (db2.filter (fun kv => (klookup (sprintKey kv.1) comps).isNone)).map
        (fun kv => DbOp.deleteWhere kv.1)
      let updated := db2.map (fun kv => (sprintKey kv.1, kv.2))
      .ok (updated, ops ++ delOps)

/-- What `refreshComponentFromDB` ends up doing. -/
inductive RefreshOutcome where
  | pushLocal      -- operator answered "y": re-run the sync path
  | acceptEmpty    -- operator answered "n": overwrite local with the empty set
  | overwritten    -- no conflict: local state overwritten by the DB contents
  | awaitingInput  -- conflict, but no valid operator answer was ever given
deriving DecidableEq, Repr

/-- The conflict prompt loop of `refreshComponentFromDB`: "y" and "n" are
the only accepted answers; anything else logs and re-runs the whole
refresh, issuing the prompt again.  Driven by the list of operator
answers; returns how many prompts were issued and the outcome. -/
def refreshConflictLoop : List String → Nat × RefreshOutcome
  | [] => (0, .awaitingInput)
  | i :: rest =>
    if i == "y" then (1, .pushLocal)
    else if i == "n" then (1, .acceptEmpty)
    else
      let o := refreshConflictLoop rest
      (o.1 + 1, o.2)

/-- `refreshComponentFromDB` from the component file, with the fetched
rows passed in (the recursive re-prompt re-fetches; the fetch is modelled
as stable across prompts).  The conflict prompt fires only when the fetch
is empty while the local set is not; otherwise local state is overwritten
by the DB contents with no prompt. -/
def refreshComponentFromDB (comps : List (String × Rec)) (fetched : List (DBKey × Rec))
    (inputs : List String) : Nat × RefreshOutcome :=
  let updated := fetched.map (fun kv => (sprintKey kv.1, kv.2))
  if updated.length = 0 ∧ 0 < comps.length then refreshConflictLoop inputs
  else (0, .overwritten)

/-- The single UPDATE statement built by `UpdateComponent`: one
`column = ?` set clause per entry of the new value (in map-iteration
order) and a WHERE clause on the primary-key field. -/
structure UpdateStmt where
  sets : List (String × String)
  whereField : String
  whereVal : String
deriving DecidableEq, Repr

/-- `UpdateComponent(id, value)` from the component file: a missing id
fails with the not-found error before any database work; a present id
updates the in-memory map and executes `Update(nil).Where(primary).Is(id)`
with one `SetWithFieldName(col).To(val)` per column — whose `Exec` fails
with "no FieldTypes to update" when the value has no columns (the memory
update has already happened by then, as in the source).  Returns the new
in-memory set and the statements issued (or the error). -/
def updateComponent (comps : List (String × Rec)) (primaryName : String)
    (id : String) (value : Rec) :
    List (String × Rec) × Except String (List UpdateStmt) :=
  match klookup id comps with
  | none => (comps, .error "no componnet found with such name")
  | some _ =>
    let comps2 := minsert id value comps
    if value.length = 0 then (comps2, .error "update failed: no FieldTypes to update")
    else (comps2, .ok [{ sets := value, whereField := primaryName, whereVal := id }])

/-- The `Results` map of the query builder (`map[any]Result`). -/
abbrev ResultsE := List (DBKey × Rec)

/-- `Results.IsEmpty` from the results helper file: the receiver is a
possibly-nil pointer (`none` models a nil `*Results`), and the body is
literally `r != nil && len(*r) > 0`. -/
def resultsIsEmpty : Option ResultsE → Bool
  | none => false
  | some r => decide (0 < r.length)

/-- Modelled from the spec: the set of declared types for which the
typeToString-then-Compare round trip actually returns true (the amended
form of the reflexivity property; the Type Mapper's "TEXT" fallback types,
Binary and UUID fall outside it). -/
def roundTripReflexive : fieldType → Bool
  | .String | .Text | .VarChar | .Int | .Float | .Decimal | .Bool | .TinyInt
  | .Date | .Time | .Timestamp | .JSON => true
  | _ => false

theorem splitHead_enumRender (defn : List String) :
    splitHead '(' (enumRender defn) = "ENUM" := by
  unfold splitHead enumRender
  rw [String.data_append, String.data_append]
  show String.mk (takeUntil '(' (['E','N','U','M','('] ++ _)) = "ENUM"
  simp [takeUntil]

theorem compareGo_enum_iff (defn : List String) (s : String) :
    compareGo .Enum defn s = true ↔ s = enumRender defn := by
  constructor
  · intro h
    unfold compareGo at h
    split at h
    all_goals try (exact absurd h (by decide))
    exact eq_of_beq h
  · intro h
    subst h
    unfold compareGo
    rw [splitHead_enumRender]
    simp

/-- C2 (corrected): the typeToString-then-Compare round trip is NOT
reflexive for every declared non-Enum type: for UUID the Type Mapper
renders "CHAR(36)", whose base token "CHAR" accepts only the Char and
String semantic types, so `Compare` rejects the mapper's own rendering. -/
theorem c2_counterexample_uuid_roundtrip_fails :
    typeToString .UUID = "CHAR(36)" ∧
      fieldType.UUID ≠ fieldType.Enum ∧
      compareGo .UUID [] (typeToString .UUID) = false :=
  ⟨rfl, by decide, rfl⟩

/-- C2 (amended): for every declared field the round trip
`Compare(field, typeToString(type))` returns true exactly for the twelve
types String, Text, VarChar, Int, Float, Decimal, Bool, TinyInt, Date,
Time, Timestamp and JSON (it fails for UUID, Binary and all types the
mapper renders through the "TEXT" fallback, and for Enum, whose rendering
"ENUM" never equals a literal-list rendering); and for an Enum-typed
field `Compare` returns true exactly when the live type string equals the
reconstructed `ENUM(...)` literal-list rendering. -/
theorem c2_compare_roundtrip_characterization :
    (∀ (f : FieldE), f.Compare (typeToString f.type) = roundTripReflexive f.type) ∧
    (∀ (f : FieldE) (s : String), f.type = fieldType.Enum →
      (f.Compare s = true ↔ s = enumRender (f.definition.getD []))) := by
  constructor
  · intro f
    unfold FieldE.Compare
    cases f.type <;> rfl
  · intro f s h
    unfold FieldE.Compare
    rw [h]
    exact compareGo_enum_iff _ s

/-- C2 witness: the round trip holds concretely for an Int field and the
Enum equivalence holds at a concrete rendering. -/
theorem c2_compare_roundtrip_witness :
    ({ name := "id", type := .Int, length := 11 } : FieldE).Compare
        (typeToString .Int) = roundTripReflexive .Int ∧
    (({ name := "sex", type := .Enum, definition := some ["A"] } : FieldE).Compare
        "ENUM('A')" = true ↔
      "ENUM('A')" = enumRender (some ["A"] |>.getD [])) :=
  ⟨c2_compare_roundtrip_characterization.1 _,
   c2_compare_roundtrip_characterization.2 _ _ rfl⟩

/-- C3 (corrected): introspecting a table that is absent from the catalog
(count = 0) does NOT replace the previous snapshot list by an empty one:
the function returns before the line that clears the cache, so a
non-empty previous snapshot survives. -/
theorem c3_counterexample_snapshot_not_cleared :
    syncModelSchema 0 []
        [{ field := "x", fieldType := "INT", nullable := "NO", key := "",
           extra := "", defaultVal := "" }] =
      [{ field := "x", fieldType := "INT", nullable := "NO", key := "",
         extra := "", defaultVal := "" }] ∧
    ([{ field := "x", fieldType := "INT", nullable := "NO", key := "",
        extra := "", defaultVal := "" }] : List SchemaE) ≠ [] :=
  ⟨rfl, by decide⟩

/-- C3 (amended): when the information_schema count is zero the
introspection returns without error and leaves the snapshot list exactly
as it was (so on a freshly registered model, whose snapshot list is
empty, the result is the empty snapshot the caller reads as "table not
yet created"); the full rebuild replacing the previous list happens only
when the table exists. -/
theorem c3_missing_table_returns_snapshot_unchanged :
    ∀ (rows : List (RawCol × List String)) (prev : List SchemaE),
      syncModelSchema 0 rows prev = prev :=
  fun _ _ => rfl

/-- C4 (confirmed): for a declared field whose column is present in the
live snapshot, `syncTableSchema` records a length-mismatch reason iff the
live parsed length differs from the declared length and it is not the
case that the live length is 1 while the declared length is 0; in
particular the BOOLEAN/TINYINT(1) quirk (live 1, declared 0) is never
flagged. -/
theorem c4_length_mismatch_reason_iff :
    ∀ (f : FieldE) (sc : SchemaE),
      Reason.lengthMismatch ∈ driftReasons f sc ↔
        ((parseSQLType sc.fieldType).2 ≠ f.length ∧
          ¬((parseSQLType sc.fieldType).2 = 1 ∧ f.length = 0)) := by
  intro f sc
  unfold driftReasons
  dsimp only
  have hmem : ∀ (c : Prop) (inst : Decidable c) (l : List Reason) (x : Reason),
      x ≠ Reason.lengthMismatch →
      (Reason.lengthMismatch ∈ (if c then l ++ [x] else l) ↔
        Reason.lengthMismatch ∈ l) := by
    intro c inst l x hx
    split <;> simp [List.mem_append, Ne.symm hx]
  rw [hmem _ _ _ _ (by decide), hmem _ _ _ _ (by decide), hmem _ _ _ _ (by decide)]
  by_cases hc : (!((parseSQLType sc.fieldType).2 == 1 && f.length == 0) &&
      (parseSQLType sc.fieldType).2 != f.length) = true
  · rw [if_pos hc]
    simp only [Bool.and_eq_true, Bool.not_eq_true', Bool.and_eq_false_iff,
      bne_iff_ne, beq_iff_eq, beq_eq_false_iff_ne] at hc
    constructor
    · intro _
      refine ⟨hc.2, ?_⟩
      tauto
    · intro _; simp [List.mem_append]
  · rw [if_neg hc]
    simp only [Bool.and_eq_true, Bool.not_eq_true', Bool.and_eq_false_iff,
      bne_iff_ne, beq_iff_eq, beq_eq_false_iff_ne, not_and, not_not] at hc
    constructor
    · intro h
      split at h <;> simp_all
    · intro hp
      exact absurd hp (by tauto)

/-- C10 (confirmed): `Results.IsEmpty`, despite its name, returns true
exactly when the receiver is a non-nil pointer to a result set holding at
least one row. -/
theorem c10_results_isempty_iff :
    ∀ (r : Option ResultsE),
      resultsIsEmpty r = true ↔ ∃ rs, r = some rs ∧ 0 < rs.length := by
  intro r
  cases r <;> simp [resultsIsEmpty]

theorem promptAct_mem {ins : List String} {a0 b : Action}
    (h : b ∈ (promptAct ins a0).1) : b = a0 := by
  unfold promptAct at h
  dsimp only at h
  split at h <;> simp_all

theorem promptActIf_mem {c : Bool} {ins : List String} {a0 b : Action}
    (h : b ∈ (promptActIf c ins a0).1) : b = a0 := by
  unfold promptActIf at h
  split at h
  · exact promptAct_mem h
  · simp_all

theorem existingFieldActions_no_add {f : FieldE} {sc : SchemaE} {ins : List String}
    {a : Action} (h : a ∈ (existingFieldActions f sc ins).1) : a.isAddField = false := by
  unfold existingFieldActions at h
  dsimp only at h
  simp only [List.mem_append] at h
  rcases h with ((h | h) | h) | h <;> (rw [promptActIf_mem h]; rfl)

theorem phase1_no_add (sm : List (String × SchemaE)) :
    ∀ (fs : List FieldE) (ins : List String) (a : Action),
      a ∈ (phase1 sm fs ins).1 → a.isAddField = false := by
  intro fs
  induction fs with
  | nil => intro ins a h; simp [phase1] at h
  | cons f fs ih =>
    intro ins a h
    unfold phase1 at h
    rcases hk : klookup f.name sm with _ | sc <;> rw [hk] at h <;> dsimp only at h
    · split at h <;> exact ih _ a h
    · simp only [List.mem_append] at h
      rcases h with h | h
      · exact existingFieldActions_no_add h
      · exact ih _ a h

theorem phase2_no_add (fm : List (String × FieldE)) :
    ∀ (scs : List SchemaE) (ins : List String) (a : Action),
      a ∈ (phase2 fm scs ins).1 → a.isAddField = false := by
  intro scs
  induction scs with
  | nil => intro ins a h; simp [phase2] at h
  | cons sc scs ih =>
    intro ins a h
    unfold phase2 at h
    split at h <;> try dsimp only at h
    · simp only [List.mem_append] at h
      rcases h with h | h
      · split at h
        · simp only [List.mem_singleton] at h
          subst h; rfl
        · simp at h
      · exact ih _ a h
    · exact ih _ a h

/-- C5 (confirmed): in every reconciliation pass the action trace of
`syncTableSchema` splits into a prefix with no "add column" action (all
modify-column, index-sync and drop-column actions for pre-existing
columns) followed by a suffix of nothing but "add column" actions: the
pending additions collected during the comparison pass are applied last. -/
theorem c5_add_column_actions_apply_last :
    ∀ (fields : List FieldE) (schemas : List SchemaE) (inputs : List String),
      ∃ pre post, syncTableSchema fields schemas inputs = pre ++ post ∧
        pre.all (fun a => !a.isAddField) = true ∧ post.all Action.isAddField = true := by
  intro fields schemas inputs
  unfold syncTableSchema
  refine ⟨_ ++ _, _, by rw [List.append_assoc], ?_, ?_⟩
  · rw [List.all_eq_true]
    intro a ha
    simp only [List.mem_append] at ha
    rcases ha with ha | ha
    · simp [phase1_no_add _ _ _ a ha]
    · simp [phase2_no_add _ _ _ a ha]
  · rw [List.all_eq_true]
    intro a ha
    simp only [List.mem_map] at ha
    obtain ⟨f, _, rfl⟩ := ha
    rfl

/-- C1 (code bug): syncing local components {"a","b"} against database
rows {"a","c"} issues exactly the insert of "b" and the delete of "c" —
so the database side ends as {"a","b"}, as the claim says — but the
rebuilt in-memory set (and hence the rewritten JSON file) is
{"a","c","b"}: the stale key "c", though deleted from the database, is
never removed from the fetched map the rebuild reads, so memory and file
do not equal the post-reconciliation database contents. -/
theorem c1_sync_component_rebuild_keeps_deleted_key :
    syncComponentWithDB false
        [("a", [("v", "1")]), ("b", [("v", "2")])]
        [(DBKey.str "a", [("v", "1")]), (DBKey.str "c", [("v", "3")])] =
      .ok ([("a", [("v", "1")]), ("c", [("v", "3")]), ("b", [("v", "2")])],
           [DbOp.insertRow [("v", "2")], DbOp.deleteWhere (DBKey.str "c")]) ∧
    klookup "c" [("a", [("v", "1")]), ("c", [("v", "3")]), ("b", [("v", "2")])] =
      some [("v", "3")] :=
  ⟨rfl, rfl⟩

/-- C6 (confirmed): with an integer-typed primary key, the in-memory
string key "0" and the database's `int64` key 0 are recognized as the
same record — the string key is coerced with `strconv.Atoi` before the
membership lookup against the integer key — so the sync issues no insert
(and no other operation) and simply adopts the database row. -/
theorem c6_int_key_coercion_no_duplicate_insert :
    ∀ (r s : Rec),
      addMissing true [("0", r)] [(DBKey.int 0, s)] [] =
        .ok ([(DBKey.int 0, s)], []) ∧
      syncComponentWithDB true [("0", r)] [(DBKey.int 0, s)] =
        .ok ([("0", s)], []) :=
  fun _ _ => ⟨rfl, rfl⟩

/-- C7 (confirmed): in the refresh-only variant, with a non-empty local
set and an empty database fetch, an operator response that is neither
exactly "y" nor exactly "n" makes the refresh re-issue the conflict
prompt and defer entirely to the remaining responses — and if no valid
response ever arrives the refresh never proceeds with a default choice. -/
theorem c7_invalid_response_reprompts :
    ∀ (comps : List (String × Rec)) (i : String) (rest : List String),
      comps ≠ [] → i ≠ "y" → i ≠ "n" →
      refreshComponentFromDB comps [] (i :: rest) =
        ((refreshComponentFromDB comps [] rest).1 + 1,
         (refreshComponentFromDB comps [] rest).2) ∧
      (refreshComponentFromDB comps [] [i]).2 = RefreshOutcome.awaitingInput := by
  intro comps i rest hc hy hn
  have hlen : 0 < comps.length := List.length_pos.mpr hc
  have hcond : (([] : List (DBKey × Rec)).map
      (fun kv => (sprintKey kv.1, kv.2))).length = 0 ∧ 0 < comps.length := ⟨rfl, hlen⟩
  have hny : (i == "y") = false := beq_eq_false_iff_ne.mpr hy
  have hnn : (i == "n") = false := beq_eq_false_iff_ne.mpr hn
  unfold refreshComponentFromDB
  dsimp only
  rw [if_pos hcond, if_pos hcond, if_pos hcond]
  constructor
  · conv_lhs => rw [refreshConflictLoop]
    rw [hny, hnn]
    simp
  · conv_lhs => rw [refreshConflictLoop]
    rw [hny, hnn]
    rfl

/-- C7 witness: local {"a"}, empty database, invalid answer "x" followed
by "y": one extra prompt relative to the remaining input, and "x" alone
leaves the conflict undecided. -/
theorem c7_invalid_response_reprompts_witness :
    refreshComponentFromDB [("a", [])] [] ["x", "y"] =
      ((refreshComponentFromDB [("a", [])] [] ["y"]).1 + 1,
       (refreshComponentFromDB [("a", [])] [] ["y"]).2) ∧
    (refreshComponentFromDB [("a", [])] [] ["x"]).2 = RefreshOutcome.awaitingInput :=
  c7_invalid_response_reprompts [("a", [])] "x" ["y"]
    (by decide) (by decide) (by decide)

/-- C8 (confirmed): per-field validation fails on each listed invariant —
a nullable primary key, primary and unique both set, auto-increment on a
non-numeric type, an enum with an empty (nil) literal list, a text field
with an index flag, and a varchar with length 0 — and succeeds on an
auto-increment, non-nullable primary-key Int field with a legal name
(independently of the external default-value compatibility predicate,
which an empty default never reaches). -/
theorem c8_validate_listed_invariants :
    ∀ (compat : fieldType → String → Bool),
      validateField compat
          { name := "userId", type := .Int, length := 11, nullable := true,
            index := { PrimaryKey := true } } = .error .pkNullable ∧
      validateField compat
          { name := "userId", type := .Int, length := 11,
            index := { PrimaryKey := true, Unique := true } } = .error .pkAndUnique ∧
      validateField compat
          { name := "tag", type := .VarChar, length := 10, autoIncrement := true,
            index := { PrimaryKey := true } } = .error .aiNotIntType ∧
      validateField compat
          { name := "status", type := .Enum } = .error .enumNoDefinition ∧
      validateField compat
          { name := "bio", type := .Text, index := { Index := true } } =
        .error .indexOnTextBlob ∧
      validateField compat
          { name := "code", type := .VarChar, length := 0 } = .error .badLength ∧
      validateField compat
          { name := "orderId", type := .Int, length := 11, autoIncrement := true,
            index := { PrimaryKey := true } } = .ok () :=
  fun _ => ⟨rfl, rfl, rfl, rfl, rfl, rfl, rfl⟩

/-- C9 (confirmed): `UpdateComponent` with an id absent from the
in-memory set fails with the not-found error, leaving memory untouched
and issuing no statement; with a present id (and a value with at least
one column) it stores the new value in the in-memory map and issues one
UPDATE statement with a set clause per column, keyed on the primary-key
field by the id. -/
theorem c9_update_component_spec :
    ∀ (comps : List (String × Rec)) (pn id : String) (value : Rec),
      (klookup id comps = none →
        updateComponent comps pn id value =
          (comps, .error "no componnet found with such name")) ∧
      (∀ r, klookup id comps = some r → value ≠ [] →
        updateComponent comps pn id value =
          (minsert id value comps,
           .ok [{ sets := value, whereField := pn, whereVal := id }])) := by
  intro comps pn id value
  constructor
  · intro h
    unfold updateComponent
    rw [h]
  · intro r h hv
    unfold updateComponent
    rw [h]
    dsimp only
    rw [if_neg (by simpa using hv)]

/-- C9 witness: a missing id "b" fails not-found with memory unchanged;
the present id "a" is updated in memory and yields the single
column-by-column UPDATE statement keyed by the primary key. -/
theorem c9_update_component_spec_witness :
    updateComponent [("a", [("c", "1")])] "id" "b" [("x", "2")] =
      ([("a", [("c", "1")])], .error "no componnet found with such name") ∧
    updateComponent [("a", [("c", "1")])] "id" "a" [("x", "2")] =
      (minsert "a" [("x", "2")] [("a", [("c", "1")])],
       .ok [{ sets := [("x", "2")], whereField := "id", whereVal := "a" }]) :=
  ⟨(c9_update_component_spec [("a", [("c", "1")])] "id" "b" [("x", "2")]).1 rfl,
   (c9_update_component_spec [("a", [("c", "1")])] "id" "a" [("x", "2")]).2
     [("c", "1")] rfl (by decide)⟩

end GoDbModel
